import Mathlib

/-!
Verification development for the Maestro repository.

Shallow embedding of the pipeline-orchestration core:
  * `orchestrator/write_qa.py` — QA gate (`determine_status`, `generate_next_actions`);
  * `src/maestro/orchestrator.py` — stage runner and pipeline sequencer;
  * `src/maestro/dashboard.py` — status broadcaster and pipeline state;
  * `src/maestro/git_agent.py` / `src/maestro/ci_cd_agent.py` — configuration
    merge and deploy gating.

Python strings are Lean `String`s, Python `None`-able fields are `Option`s,
Python exceptions are `Except` results, Python dicts are insertion-ordered
association lists.
-/

namespace Maestro

/-! ## write_qa.py -/

/-- Function `determine_status(lint_rc, types_rc, tests_rc)` from
`orchestrator/write_qa.py`: overall QA status from the three return-code
strings. -/
def determine_status (lint_rc types_rc tests_rc : String) : String :=
  if lint_rc = "0" ∧ types_rc = "0" ∧ tests_rc = "0" then "pass"
  else if lint_rc = "0" ∧ types_rc = "0" then "soft-fail"
  else "fail"

/-- Python's substring test `needle in hay` on lists of characters:
some suffix of `hay` starts with `needle`. -/
def listContains (hay needle : List Char) : Bool :=
  match hay with
  | [] => needle.isEmpty
  | _ :: t => needle.isPrefixOf hay || listContains t needle

/-- Python's `needle in hay` for strings. -/
def strIn (needle hay : String) : Bool :=
  listContains hay.data needle.data

/-- The `if lint_rc != "0"` block of `generate_next_actions` in
`orchestrator/write_qa.py`: each `actions.append` becomes one list element,
in source order; the substring tests are Python's case-sensitive `in`. -/
def lint_actions (lint_rc lint_out : String) : List String :=
  if lint_rc ≠ "0" then
    ["Corrigir erros de linting"]
    ++ (if strIn "unused import" lint_out then ["Remover imports não utilizados"] else [])
    ++ (if strIn "line too long" lint_out then ["Quebrar linhas muito longas"] else [])
  else []

/-- The `if types_rc != "0"` block of `generate_next_actions`. -/
def types_actions (types_rc types_out : String) : List String :=
  if types_rc ≠ "0" then
    ["Corrigir erros de type checking"]
    ++ (if strIn "missing type annotation" types_out then ["Adicionar anotações de tipo"] else [])
    ++ (if strIn "incompatible types" types_out then ["Corrigir incompatibilidades de tipo"] else [])
  else []

/-- The `if tests_rc != "0"` block of `generate_next_actions`. -/
def tests_actions (tests_rc tests_out : String) : List String :=
  if tests_rc ≠ "0" then
    ["Corrigir testes falhando"]
    ++ (if strIn "assertion error" tests_out then ["Verificar asserções dos testes"] else [])
    ++ (if strIn "import error" tests_out then ["Verificar imports dos testes"] else [])
  else []

/-- Function `generate_next_actions(...)` from `orchestrator/write_qa.py`: the three
blocks run in source order on one accumulating `actions` list. -/
def generate_next_actions (lint_rc types_rc tests_rc lint_out types_out tests_out : String) :
    List String :=
  lint_actions lint_rc lint_out ++ types_actions types_rc types_out
    ++ tests_actions tests_rc tests_out

/-! ## src/maestro/orchestrator.py -/

/-- The five fixed pipeline stage names. -/
inductive StageName where
  | planner
  | coder
  | integrator
  | tester
  | reporter
deriving DecidableEq, Repr

/-- One entry of `Orchestrator.pipeline_status`:
`{"status": ..., "progress": ..., "error": ...}`. -/
structure StageRecord where
  status : String
  progress : Option String
  error : Option String
deriving DecidableEq, Repr

/-- The initial record `{"status": "waiting", "progress": None, "error": None}`. -/
def initRecord : StageRecord := { status := "waiting", progress := none, error := none }

/-- Dict `Orchestrator.pipeline_status`: one record per stage name. -/
structure PipelineStatus where
  planner : StageRecord
  coder : StageRecord
  integrator : StageRecord
  tester : StageRecord
  reporter : StageRecord
deriving DecidableEq, Repr

/-- The `pipeline_status` dict set up in `Orchestrator.__init__`. -/
def initPipelineStatus : PipelineStatus :=
  { planner := initRecord, coder := initRecord, integrator := initRecord,
    tester := initRecord, reporter := initRecord }

/-- Read `self.pipeline_status[name]`. -/
def getRecord (ps : PipelineStatus) : StageName → StageRecord
  | .planner => ps.planner
  | .coder => ps.coder
  | .integrator => ps.integrator
  | .tester => ps.tester
  | .reporter => ps.reporter

/-- Write `self.pipeline_status[name] = r`. -/
def setRecord (ps : PipelineStatus) (name : StageName) (r : StageRecord) : PipelineStatus :=
  match name with
  | .planner => { ps with planner := r }
  | .coder => { ps with coder := r }
  | .integrator => { ps with integrator := r }
  | .tester => { ps with tester := r }
  | .reporter => { ps with reporter := r }

/-- The two writes at the top of `_run_stage`:
`status = "running"`, `progress = "0%"`. -/
def mark_running (r : StageRecord) : StageRecord :=
  { r with status := "running", progress := some "0%" }

/-- The two writes on success in `_run_stage`:
`status = "completed"`, `progress = "100%"` (error untouched). -/
def mark_completed (r : StageRecord) : StageRecord :=
  { r with status := "completed", progress := some "100%" }

/-- The two writes in the `except` branch of `_run_stage`:
`status = "failed"`, `error = str(e)` (progress untouched). -/
def mark_failed (r : StageRecord) (e : String) : StageRecord :=
  { r with status := "failed", error := some e }

/-- Method `_run_stage` restricted to the one record it touches: the record is first
marked running, then `stage_func` runs (its outcome is the `res` argument:
`.ok ()` for normal return, `.error e` for a raised exception with message
`e`), and the record is marked completed or failed accordingly.  The second
component is what `_run_stage` does control-wise: the exception is re-raised
(`raise`) after recording, success returns normally. -/
def run_stage_record (r : StageRecord) (res : Except String Unit) :
    StageRecord × Except String Unit :=
  let r1 := mark_running r
  match res with
  | .ok _ => (mark_completed r1, .ok ())
  | .error e => (mark_failed r1 e, .error e)

/-- The ordered sequence of records written for the stage during one
`_run_stage` call: first the running record, then the terminal one. -/
def stage_trace (r : StageRecord) (res : Except String Unit) : List StageRecord :=
  let r1 := mark_running r
  match res with
  | .ok _ => [r1, mark_completed r1]
  | .error e => [r1, mark_failed r1 e]

/-- Method `_run_stage` on the whole `pipeline_status` dict. -/
def run_stage (ps : PipelineStatus) (name : StageName) (res : Except String Unit) :
    PipelineStatus × Except String Unit :=
  let out := run_stage_record (getRecord ps name) res
  (setRecord ps name out.1, out.2)

/-- The stage loop of `run_pipeline`: runs the stages in order, halting at the
first stage whose operation raises; returns the final status dict and whether
the loop ran to completion (`run_pipeline`'s return value). -/
def run_stages (ops : StageName → Except String Unit) :
    List StageName → PipelineStatus → PipelineStatus × Bool
  | [], ps => (ps, true)
  | n :: rest, ps =>
    match run_stage ps n (ops n) with
    | (ps1, Except.ok _) => run_stages ops rest ps1
    | (ps1, Except.error _) => (ps1, false)

/-- The fixed stage order of `run_pipeline`. -/
def stageOrder : List StageName :=
  [.planner, .coder, .integrator, .tester, .reporter]

/-- Position of a stage in `stageOrder`. -/
def stageIndex : StageName → Nat
  | .planner => 0
  | .coder => 1
  | .integrator => 2
  | .tester => 3
  | .reporter => 4

/-- The errors `_validate_environment` can raise. -/
inductive EnvError where
  | issue_not_found (task : String)
  | cli_not_found (cli : String)
deriving DecidableEq, Repr

/-- The CLI loop of `_validate_environment`: raise at the first required CLI
that is not on the PATH (`cli_exists` models `shutil.which(cli) is not None`). -/
def check_clis (cli_exists : String → Bool) : List String → Except EnvError Unit
  | [] => .ok ()
  | c :: rest =>
    if cli_exists c then check_clis cli_exists rest
    else .error (.cli_not_found c)

/-- List `required_clis = ["gemini", "codex", "cursor"]`. -/
def required_clis : List String := ["gemini", "codex", "cursor"]

/-- Method `_validate_environment`: raises `FileNotFoundError` if the task's issue
file is missing (`issue_exists` models `issue_file.exists()`), then checks the
required CLIs in order. -/
def validate_environment (task : String) (issue_exists : Bool)
    (cli_exists : String → Bool) : Except EnvError Unit :=
  if issue_exists then check_clis cli_exists required_clis
  else .error (.issue_not_found task)

/-! ## src/maestro/dashboard.py -/

/-- Method `unregister_client`: removes the observer from the connected list if
present (Python `list.remove` drops the first occurrence), otherwise leaves
the list unchanged. -/
def unregister_client {α : Type} [DecidableEq α] (clients : List α) (c : α) : List α :=
  if c ∈ clients then clients.erase c else clients

/-- Method `send_to_all_clients(message)`: returns immediately when no client is
connected; otherwise serializes the message once (`message_str`), attempts
one send per connected client in order (`sendOk` tells whether the send
succeeds or raises `ConnectionClosed`), collects the failing clients, and
unregisters each of them afterwards.  Result: the payload serialized (once,
or not at all), the clients that received the event, and the new connected
list.  No error ever propagates to the caller. -/
def send_to_all_clients {α μ : Type} [DecidableEq α] (serialize : μ → String)
    (message : μ) (clients : List α) (sendOk : α → Bool) :
    Option String × List α × List α :=
  if clients.isEmpty then (none, [], clients)
  else
    let message_str := serialize message
    let disconnected := clients.filter (fun c => !(sendOk c))
    (some message_str, clients.filter sendOk, disconnected.foldl unregister_client clients)

/-- Dict `self.metrics` of `DashboardServer.__init__`. -/
structure Metrics where
  totalTime : Int
  testsPassed : Int
  coverage : Int
  filesTouched : Int
deriving DecidableEq, Repr

/-- The dashboard server state observed by the claims: current task, the
stage records, the metrics and the opaque documentation status. -/
structure DashboardState where
  current_task : String
  pipeline_status : PipelineStatus
  metrics : Metrics
  doc_status : Option String
deriving DecidableEq, Repr

/-- Events broadcast by the dashboard, as far as the claims observe them. -/
inductive Event where
  | log (level message : String)
  | pipeline_start (task : String)
deriving DecidableEq, Repr

/-- The `start_pipeline` branch of `DashboardServer.handle_client_message`:
sets `current_task` to `data.get("task", "demo")`, resets every stage record
to the waiting record, adds an INFO log entry, and broadcasts a
`pipeline_start` event with the task. -/
def start_pipeline (st : DashboardState) (task : Option String) :
    DashboardState × List Event :=
  let t := task.getD "demo"
  ({ st with current_task := t, pipeline_status := initPipelineStatus },
   [Event.log "INFO" ("Starting pipeline for task: " ++ t),
    Event.pipeline_start t])

/-- The orchestrator state the claims observe: `current_task` and
`pipeline_status`. -/
structure OrchState where
  current_task : String
  pipeline_status : PipelineStatus
deriving DecidableEq, Repr

/-- Method `run_pipeline(task)`: sets `current_task`, validates the environment
(returning `False` with no stage transition when validation raises), then runs
the stage loop, catching the first stage failure and returning `False` for
it.  Returns the final state and the boolean result. -/
def run_pipeline (st : OrchState) (task : String) (issue_exists : Bool)
    (cli_exists : String → Bool) (ops : StageName → Except String Unit) :
    OrchState × Bool :=
  let st := { st with current_task := task }
  match validate_environment task issue_exists cli_exists with
  | .error _ => (st, false)
  | .ok _ =>
    let out := run_stages ops stageOrder st.pipeline_status
    ({ st with pipeline_status := out.1 }, out.2)

/-! ## src/maestro/git_agent.py and src/maestro/ci_cd_agent.py -/

/-- JSON-like configuration values; Python dicts are insertion-ordered
association lists with unique keys. -/
inductive JVal where
  | bool (b : Bool)
  | int (n : Int)
  | str (s : String)
  | strlist (xs : List String)
  | dict (d : List (String × JVal))

/-- Python `d.get(k)`: the binding of `k`, if any. -/
def dictGet {β : Type} (d : List (String × β)) (k : String) : Option β :=
  match d with
  | [] => none
  | p :: t => if p.1 = k then some p.2 else dictGet t k

/-- Python `k in d`. -/
def containsKey {β : Type} (d : List (String × β)) (k : String) : Bool :=
  d.any (fun p => p.1 == k)

/-- Python `d[k] = v`: overwrite in place when the key exists, else append. -/
def dictSet {β : Type} (d : List (String × β)) (k : String) (v : β) :
    List (String × β) :=
  match d with
  | [] => [(k, v)]
  | p :: t => if p.1 = k then (k, v) :: t else p :: dictSet t k v

/-- Python `d.setdefault(k, v)`. -/
def dictSetdefault {β : Type} (d : List (String × β)) (k : String) (v : β) :
    List (String × β) :=
  if containsKey d k then d else d ++ [(k, v)]

/-- Python `d.update(other)`: assign each binding of `other`, in order. -/
def dictUpdate {β : Type} (d other : List (String × β)) : List (String × β) :=
  other.foldl (fun acc p => dictSet acc p.1 p.2) d

/-- The loop `for k2, v2 in defaults.items(): section.setdefault(k2, v2)`
of `merge_defaults`. -/
def applySetdefaults {β : Type} (d defaults : List (String × β)) :
    List (String × β) :=
  defaults.foldl (fun acc p => dictSetdefault acc p.1 p.2) d

/-- One section of the `merge_defaults` loop body: when the provided value is
a dict, layer it over a copy of the default section (after the no-op
setdefault pass); any other provided value, or none, yields a copy of the
default section. -/
def merge_section (cfg : List (String × JVal)) (key : String)
    (defaults : List (String × JVal)) : JVal :=
  match dictGet cfg key with
  | some (JVal.dict val) => JVal.dict (dictUpdate (applySetdefaults defaults defaults) val)
  | _ => JVal.dict defaults

/-- The closing loop of `merge_defaults`:
`for k in cfg.keys(): if k not in merged: merged[k] = cfg[k]`. -/
def add_extra_keys (m : List (String × JVal)) (cfg : List (String × JVal)) :
    List (String × JVal) :=
  cfg.foldl (fun acc kc => if containsKey acc kc.1 then acc else acc ++ [kc]) m

/-- Function `merge_defaults(cfg)` from `_load_config` in `git_agent.py` and
`ci_cd_agent.py` (both agents define the identical function): build `merged`
with one entry per default section, then append the unknown top-level keys of
`cfg`.  The default config is a parameter because the two agents carry
slightly different `DEFAULT_CONFIG` dicts. -/
def merge_defaults (default_config : List (String × List (String × JVal)))
    (cfg : List (String × JVal)) : List (String × JVal) :=
  let merged := default_config.map (fun kd => (kd.1, merge_section cfg kd.1 kd.2))
  add_extra_keys merged cfg

/-- Dict `DEFAULT_CONFIG` of `ci_cd_agent.py`. -/
def DEFAULT_CONFIG : List (String × List (String × JVal)) :=
  [("git",
    [("auto_commit", .bool true), ("auto_push", .bool true), ("auto_pr", .bool true),
     ("branch_prefix", .str "feature/"),
     ("commit_message_template", .str "feat: \x7btask_id\x7d - \x7bdescription\x7d")]),
   ("ci_cd",
    [("auto_deploy_staging", .bool true), ("auto_deploy_production", .bool false),
     ("rollback_on_failure", .bool true), ("deploy_timeout", .int 300),
     ("github_actions_workflow", .str "maestro-automation.yml")]),
   ("security",
    [("exclude_patterns", .strlist ["*.env", "secrets/*", "*.key", "*.log", "*.tmp"]),
     ("max_diff_lines", .int 1000), ("require_manual_approval", .bool true),
     ("require_qa_pass", .bool true)]),
   ("logging",
    [("log_file", .str "logs/ci-cd-automation.log")])]

/-- Dict `DEFAULT_CONFIG` of `git_agent.py` (smaller `security` and a different
log file, otherwise identical). -/
def GIT_DEFAULT_CONFIG : List (String × List (String × JVal)) :=
  [("git",
    [("auto_commit", .bool true), ("auto_push", .bool true), ("auto_pr", .bool true),
     ("branch_prefix", .str "feature/"),
     ("commit_message_template", .str "feat: \x7btask_id\x7d - \x7bdescription\x7d")]),
   ("ci_cd",
    [("auto_deploy_staging", .bool true), ("auto_deploy_production", .bool false),
     ("rollback_on_failure", .bool true), ("deploy_timeout", .int 300),
     ("github_actions_workflow", .str "maestro-automation.yml")]),
   ("security",
    [("exclude_patterns", .strlist ["*.env", "secrets/*", "*.key", "*.log", "*.tmp"]),
     ("max_diff_lines", .int 1000)]),
   ("logging",
    [("log_file", .str "logs/git-automation.log")])]

/-- Method `CICDAgent.deploy_staging`, decision structure: inputs are the
`ci_cd.auto_deploy_staging` flag, whether the GitHub CLI is available, and
whether the `gh workflow run` call exits 0.  Result: the returned boolean and
whether the deploy workflow was actually invoked. -/
def cicd_deploy_staging (auto_deploy_staging gh_available workflow_ok : Bool) :
    Bool × Bool :=
  if !auto_deploy_staging then (true, false)
  else if !gh_available then (true, false)
  else (workflow_ok, true)

/-- Method `CICDAgent.trigger_production_deploy`: when
`security.require_manual_approval` is set, log and return success without
touching the workflow; otherwise check the GitHub CLI and run the workflow
exactly as the staging deploy does. -/
def trigger_production_deploy (require_manual_approval gh_available workflow_ok : Bool) :
    Bool × Bool :=
  if require_manual_approval then (true, false)
  else if !gh_available then (true, false)
  else (workflow_ok, true)

end Maestro

namespace Maestro

/-- C1: `determine_status` returns "pass" iff all three return-code strings are
"0", "soft-fail" iff lint and types are "0" but tests are not, and "fail"
otherwise; in particular the four concrete cases of the spec hold. -/
theorem determine_status_correct :
    (∀ l t s : String,
      (determine_status l t s = "pass" ↔ (l = "0" ∧ t = "0" ∧ s = "0")) ∧
      (determine_status l t s = "soft-fail" ↔ (l = "0" ∧ t = "0" ∧ s ≠ "0")) ∧
      (determine_status l t s = "fail" ↔ ¬(l = "0" ∧ t = "0"))) ∧
    determine_status "0" "0" "0" = "pass" ∧
    determine_status "0" "0" "1" = "soft-fail" ∧
    determine_status "1" "0" "1" = "fail" ∧
    determine_status "1" "1" "1" = "fail" := by
  refine ⟨fun l t s => ?_, by decide, by decide, by decide, by decide⟩
  by_cases hl : l = "0" <;> by_cases ht : t = "0" <;> by_cases hs : s = "0" <;>
    simp [determine_status, hl, ht, hs]

/-- The "Remover imports não utilizados" hint never comes from the types
block. -/
lemma remover_not_mem_types_actions (types_rc types_out : String) :
    "Remover imports não utilizados" ∉ types_actions types_rc types_out := by
  unfold types_actions
  split_ifs <;> decide

/-- The "Remover imports não utilizados" hint never comes from the tests
block. -/
lemma remover_not_mem_tests_actions (tests_rc tests_out : String) :
    "Remover imports não utilizados" ∉ tests_actions tests_rc tests_out := by
  unfold tests_actions
  split_ifs <;> decide

/-- The "Remover imports não utilizados" hint appears in the lint block iff
the lint return code is nonzero and the raw lint output contains the exact
lowercase trigger. -/
lemma remover_mem_lint_actions (lint_rc lint_out : String) :
    "Remover imports não utilizados" ∈ lint_actions lint_rc lint_out ↔
      (lint_rc ≠ "0" ∧ strIn "unused import" lint_out = true) := by
  unfold lint_actions
  split_ifs with h1 h2 h3 <;> simp_all

/-- C2 counterexample: the hint triggers of `generate_next_actions` are not
case-insensitive.  The lint output "UNUSED IMPORT" contains "unused import"
up to case, yet the corresponding hint is not produced, and the result
differs from the one for the lowercase output. -/
theorem generate_next_actions_case_sensitivity_counterexample :
    listContains ("UNUSED IMPORT".data.map Char.toLower) ("unused import".data) = true ∧
    "Remover imports não utilizados" ∉
      generate_next_actions "1" "1" "1" "UNUSED IMPORT" "incompatible types" "assertion error" ∧
    generate_next_actions "1" "1" "1" "UNUSED IMPORT" "incompatible types" "assertion error" ≠
      generate_next_actions "1" "1" "1" "unused import" "incompatible types" "assertion error" := by
  refine ⟨by decide, by decide, by decide⟩

/-- C2 (amended): `generate_next_actions` is a pure function of its six
inputs; its hint triggers are case-sensitive substring matches inside the raw
check outputs (shown for the "unused import" trigger, characterised over all
inputs); and for rc = ("1","1","1") with outputs "unused import",
"incompatible types", "assertion error" the result is exactly the six listed
actions, in order. -/
theorem generate_next_actions_spec :
    (∀ l t s lout tout sout : String,
      "Remover imports não utilizados" ∈ generate_next_actions l t s lout tout sout ↔
        (l ≠ "0" ∧ strIn "unused import" lout = true)) ∧
    generate_next_actions "1" "1" "1" "unused import" "incompatible types" "assertion error" =
      ["Corrigir erros de linting", "Remover imports não utilizados",
       "Corrigir erros de type checking", "Corrigir incompatibilidades de tipo",
       "Corrigir testes falhando", "Verificar asserções dos testes"] := by
  constructor
  · intro l t s lout tout sout
    rw [generate_next_actions]
    simp only [List.mem_append]
    rw [remover_mem_lint_actions]
    have h2 := remover_not_mem_types_actions t tout
    have h3 := remover_not_mem_tests_actions s sout
    tauto
  · decide

/-- C5: under `_run_stage` the record goes `waiting → running` (progress
"0%") before the operation is invoked, then `running → completed` (progress
"100%") on success or `running → failed` (error set) on an exception; the
intermediate record written before the operation has status "running", so a
stage never goes from waiting directly to a terminal status; and the stage
result (normal return or re-raised exception) is exactly the operation's
outcome, delivered after the record is updated. -/
theorem run_stage_transitions (r : StageRecord) (e : String) :
    (mark_running r).status = "running" ∧
    (mark_running r).progress = some "0%" ∧
    (mark_running r).status ≠ "waiting" ∧
    (mark_running r).status ≠ "completed" ∧
    (mark_running r).status ≠ "failed" ∧
    stage_trace r (.ok ()) = [mark_running r, mark_completed (mark_running r)] ∧
    run_stage_record r (.ok ()) = (mark_completed (mark_running r), .ok ()) ∧
    (mark_completed (mark_running r)).status = "completed" ∧
    (mark_completed (mark_running r)).progress = some "100%" ∧
    stage_trace r (.error e) = [mark_running r, mark_failed (mark_running r) e] ∧
    run_stage_record r (.error e) = (mark_failed (mark_running r) e, .error e) ∧
    (mark_failed (mark_running r) e).status = "failed" ∧
    (mark_failed (mark_running r) e).error = some e :=
  ⟨rfl, rfl, by simp [mark_running], by simp [mark_running], by simp [mark_running],
   rfl, rfl, rfl, rfl, rfl, rfl, rfl, rfl⟩

/-- C10: a successful `_run_stage` run writes only `status` and `progress`
and never clears `error`: the completed record is exactly the input record
with those two fields overwritten, and a record carrying an error message
from an earlier failed run keeps that message alongside status
"completed". -/
theorem run_stage_success_keeps_error (r : StageRecord) (m : String) :
    (run_stage_record r (.ok ())).1 =
      { r with status := "completed", progress := some "100%" } ∧
    (run_stage_record r (.ok ())).1.error = r.error ∧
    (run_stage_record { r with error := some m } (.ok ())).1.error = some m ∧
    (run_stage_record { r with error := some m } (.ok ())).1.status = "completed" :=
  ⟨rfl, rfl, rfl, rfl⟩

/-- C4: when `_validate_environment` raises, `run_pipeline` returns `False`
and no stage record is mutated: the resulting state is the input state with
only `current_task` updated, and the `pipeline_status` dict is exactly the
one from before the call. -/
theorem run_pipeline_env_failure_atomic
    (st : OrchState) (task : String) (issue_exists : Bool)
    (cli_exists : String → Bool) (ops : StageName → Except String Unit)
    (err : EnvError)
    (henv : validate_environment task issue_exists cli_exists = Except.error err) :
    run_pipeline st task issue_exists cli_exists ops =
      ({ st with current_task := task }, false) ∧
    (run_pipeline st task issue_exists cli_exists ops).1.pipeline_status =
      st.pipeline_status := by
  constructor
  · simp [run_pipeline, henv]
  · simp [run_pipeline, henv]

/-- Witness for C4: a missing issue file makes validation fail, and
`run_pipeline` leaves the fresh status dict untouched while returning
`false`. -/
theorem run_pipeline_env_failure_atomic_witness :
    run_pipeline ⟨"demo", initPipelineStatus⟩ "T-1" false (fun _ => true)
        (fun _ => Except.ok ()) =
      ({ current_task := "T-1", pipeline_status := initPipelineStatus }, false) :=
  (run_pipeline_env_failure_atomic ⟨"demo", initPipelineStatus⟩ "T-1" false
    (fun _ => true) (fun _ => Except.ok ()) (EnvError.issue_not_found "T-1") rfl).1

/-- C3: starting from a fresh status dict, if environment validation passes
and stage `k` is the first stage in order whose operation raises, then
`run_pipeline` returns `False`, the failing stage is recorded as failed, and
every stage after `k` in the order is still exactly the initial waiting
record (no progress, no error). -/
theorem run_pipeline_halts_at_first_failure
    (task e : String) (cli_exists : String → Bool)
    (ops : StageName → Except String Unit) (k : StageName)
    (henv : validate_environment task true cli_exists = Except.ok ())
    (hfail : ops k = Except.error e)
    (hok : ∀ n : StageName, stageIndex n < stageIndex k → ops n = Except.ok ()) :
    (run_pipeline ⟨"demo", initPipelineStatus⟩ task true cli_exists ops).2 = false ∧
    (getRecord (run_pipeline ⟨"demo", initPipelineStatus⟩ task true cli_exists
        ops).1.pipeline_status k).status = "failed" ∧
    ∀ n : StageName, stageIndex k < stageIndex n →
      getRecord (run_pipeline ⟨"demo", initPipelineStatus⟩ task true cli_exists
        ops).1.pipeline_status n = initRecord := by
  cases k with
  | planner =>
    refine ⟨?_, ?_, ?_⟩ <;>
      simp only [run_pipeline, henv, stageOrder, run_stages, run_stage, run_stage_record,
        hfail, getRecord, setRecord, mark_running, mark_failed, initPipelineStatus]
    intro n hn
    cases n <;> simp_all [stageIndex, getRecord, initRecord, initPipelineStatus]
  | coder =>
    have h0 : ops StageName.planner = Except.ok () := hok .planner (by decide)
    refine ⟨?_, ?_, ?_⟩ <;>
      simp only [run_pipeline, henv, stageOrder, run_stages, run_stage, run_stage_record,
        h0, hfail, getRecord, setRecord, mark_running, mark_completed, mark_failed,
        initPipelineStatus]
    intro n hn
    cases n <;> simp_all [stageIndex, getRecord, initRecord, initPipelineStatus]
  | integrator =>
    have h0 : ops StageName.planner = Except.ok () := hok .planner (by decide)
    have h1 : ops StageName.coder = Except.ok () := hok .coder (by decide)
    refine ⟨?_, ?_, ?_⟩ <;>
      simp only [run_pipeline, henv, stageOrder, run_stages, run_stage, run_stage_record,
        h0, h1, hfail, getRecord, setRecord, mark_running, mark_completed, mark_failed,
        initPipelineStatus]
    intro n hn
    cases n <;> simp_all [stageIndex, getRecord, initRecord, initPipelineStatus]
  | tester =>
    have h0 : ops StageName.planner = Except.ok () := hok .planner (by decide)
    have h1 : ops StageName.coder = Except.ok () := hok .coder (by decide)
    have h2 : ops StageName.integrator = Except.ok () := hok .integrator (by decide)
    refine ⟨?_, ?_, ?_⟩ <;>
      simp only [run_pipeline, henv, stageOrder, run_stages, run_stage, run_stage_record,
        h0, h1, h2, hfail, getRecord, setRecord, mark_running, mark_completed, mark_failed,
        initPipelineStatus]
    intro n hn
    cases n <;> simp_all [stageIndex, getRecord, initRecord, initPipelineStatus]
  | reporter =>
    have h0 : ops StageName.planner = Except.ok () := hok .planner (by decide)
    have h1 : ops StageName.coder = Except.ok () := hok .coder (by decide)
    have h2 : ops StageName.integrator = Except.ok () := hok .integrator (by decide)
    have h3 : ops StageName.tester = Except.ok () := hok .tester (by decide)
    refine ⟨?_, ?_, ?_⟩ <;>
      simp only [run_pipeline, henv, stageOrder, run_stages, run_stage, run_stage_record,
        h0, h1, h2, h3, hfail, getRecord, setRecord, mark_running, mark_completed,
        mark_failed, initPipelineStatus]
    intro n hn
    cases n <;> simp_all [stageIndex, getRecord, initRecord, initPipelineStatus]

/-- C7: from any prior dashboard state — including one with completed or
failed stages — the `start_pipeline` message sets the active task, resets all
five stage records to waiting with progress and error cleared, broadcasts a
`pipeline_start` event, and leaves the metrics and documentation status
untouched. -/
theorem start_pipeline_resets_all_stages (st : DashboardState) (task : String) :
    (start_pipeline st (some task)).1.current_task = task ∧
    (start_pipeline st (some task)).1.pipeline_status = initPipelineStatus ∧
    (∀ n : StageName,
      getRecord (start_pipeline st (some task)).1.pipeline_status n = initRecord) ∧
    Event.pipeline_start task ∈ (start_pipeline st (some task)).2 ∧
    (start_pipeline st (some task)).1.metrics = st.metrics ∧
    (start_pipeline st (some task)).1.doc_status = st.doc_status := by
  refine ⟨rfl, rfl, ?_, ?_, rfl, rfl⟩
  · intro n; cases n <;> rfl
  · simp [start_pipeline]

/-- A filter keeping exactly one element of a duplicate-free list. -/
lemma filter_eq_singleton_of_unique {α : Type} [DecidableEq α] (l : List α)
    (p : α → Bool) (c : α) (hnd : l.Nodup) (hc : c ∈ l)
    (h : ∀ x ∈ l, p x = true ↔ x = c) : l.filter p = [c] := by
  induction l with
  | nil => cases hc
  | cons a t ih =>
    rcases List.nodup_cons.mp hnd with ⟨hat, hnt⟩
    by_cases hac : a = c
    · subst hac
      have hpa : p a = true := (h a (List.mem_cons_self a t)).mpr rfl
      have hrest : t.filter p = [] := by
        apply List.filter_eq_nil_iff.mpr
        intro x hx
        intro hpx
        exact hat ((h x (List.mem_cons_of_mem a hx)).mp hpx ▸ hx)
      simp [List.filter_cons, hpa, hrest]
    · have hca : c ∈ t := by
        rcases List.mem_cons.mp hc with h1 | h1
        · exact absurd h1.symm hac
        · exact h1
      have hpa : p a = false := by
        rcases Bool.eq_false_or_eq_true (p a) with h1 | h1
        · exact absurd ((h a (List.mem_cons_self a t)).mp h1) hac
        · exact h1
      have := ih hnt hca (fun x hx => h x (List.mem_cons_of_mem a hx))
      simp [List.filter_cons, hpa, this]

/-- C6: when exactly one of the registered observers fails to receive the
broadcast, `send_to_all_clients` returns (no error propagates), serializes
the event once, unregisters exactly the failing observer, keeps the other
N-1 observers registered, and a subsequent broadcast whose sends succeed is
delivered to all of them. -/
theorem broadcast_prunes_only_failing_observer {α μ : Type} [DecidableEq α]
    (serialize : μ → String) (message : μ) (clients : List α)
    (sendOk : α → Bool) (c : α) (hnd : clients.Nodup) (hc : c ∈ clients)
    (hone : ∀ x ∈ clients, sendOk x = false ↔ x = c) :
    (send_to_all_clients serialize message clients sendOk).1 =
      some (serialize message) ∧
    (send_to_all_clients serialize message clients sendOk).2.2 =
      clients.erase c ∧
    c ∉ (send_to_all_clients serialize message clients sendOk).2.2 ∧
    (∀ x ∈ clients, x ≠ c →
      x ∈ (send_to_all_clients serialize message clients sendOk).2.2) ∧
    (send_to_all_clients serialize message clients sendOk).2.2.length =
      clients.length - 1 ∧
    (∀ sendOk2 : α → Bool, (∀ x, sendOk2 x = true) →
      (send_to_all_clients serialize message
        ((send_to_all_clients serialize message clients sendOk).2.2)
        sendOk2).2.1 =
      (send_to_all_clients serialize message clients sendOk).2.2) := by
  have hne : clients.isEmpty = false := by
    cases clients with
    | nil => cases hc
    | cons a t => rfl
  have hdisc : clients.filter (fun x => !(sendOk x)) = [c] := by
    apply filter_eq_singleton_of_unique clients _ c hnd hc
    intro x hx
    rw [Bool.not_eq_true']
    exact hone x hx
  have hout : (send_to_all_clients serialize message clients sendOk).2.2 =
      clients.erase c := by
    simp only [send_to_all_clients, hne, Bool.false_eq_true, if_false, hdisc,
      List.foldl_cons, List.foldl_nil, unregister_client, hc, if_true]
  refine ⟨?_, hout, ?_, ?_, ?_, ?_⟩
  · simp only [send_to_all_clients, hne, Bool.false_eq_true, if_false]
  · rw [hout]
    intro hmem
    exact (List.Nodup.mem_erase_iff hnd).mp hmem |>.1 rfl
  · intro x hx hxc
    rw [hout]
    exact (List.mem_erase_of_ne hxc).mpr hx
  · rw [hout]
    exact List.length_erase_of_mem hc
  · intro sendOk2 hall
    rw [hout]
    cases herase : clients.erase c with
    | nil => rfl
    | cons a t =>
      have : (a :: t).isEmpty = false := rfl
      simp only [send_to_all_clients, this, Bool.false_eq_true, if_false]
      exact List.filter_eq_self.mpr (fun x _ => hall x)

/-- Witness for C6: three observers `[1, 2, 3]`, observer `2` fails; it is
removed and observers `1` and `3` remain. -/
theorem broadcast_prunes_only_failing_observer_witness :
    (send_to_all_clients (fun n : Nat => toString n) 7 [1, 2, 3]
      (fun x => decide (x ≠ 2))).2.2 = [1, 3] := by
  have h := broadcast_prunes_only_failing_observer (fun n : Nat => toString n) 7
    [1, 2, 3] (fun x => decide (x ≠ 2)) 2 (by decide) (by decide)
    (by decide)
  rw [h.2.1]
  decide

/-- Witness for C3: with all CLIs present and the coder stage raising, the
run fails, the coder record is failed, and integrator/tester/reporter stay
waiting. -/
theorem run_pipeline_halts_at_first_failure_witness :
    (run_pipeline ⟨"demo", initPipelineStatus⟩ "T-1" true (fun _ => true)
      (fun n => if n = StageName.coder then Except.error "boom" else Except.ok ())).2
        = false := by
  have h := run_pipeline_halts_at_first_failure "T-1" "boom" (fun _ => true)
    (fun n => if n = StageName.coder then Except.error "boom" else Except.ok ())
    StageName.coder rfl rfl
    (by intro n hn; cases n <;> simp_all [stageIndex])
  exact h.1

/-- A dict has no binding for `k` exactly when `k in d` is false. -/
lemma containsKey_eq_false_iff {β : Type} (l : List (String × β)) (k : String) :
    containsKey l k = false ↔ dictGet l k = none := by
  induction l with
  | nil => simp [containsKey, dictGet]
  | cons p t ih =>
    simp only [containsKey, List.any_cons] at ih ⊢
    by_cases h : p.1 = k <;> simp [dictGet, h, ih]

/-- A key not among a dict's keys has no binding. -/
lemma dictGet_eq_none_of_not_mem_keys {β : Type} (l : List (String × β)) (k : String)
    (h : k ∉ l.map Prod.fst) : dictGet l k = none := by
  induction l with
  | nil => rfl
  | cons p t ih =>
    simp only [List.map_cons, List.mem_cons, not_or] at h
    have h1 : p.1 ≠ k := Ne.symm h.1
    simp [dictGet, h1, ih h.2]

/-- Lookup stays in the left part when it binds the key. -/
lemma dictGet_append_left {β : Type} {l1 : List (String × β)} (l2 : List (String × β))
    (k : String) (v : β) (h : dictGet l1 k = some v) :
    dictGet (l1 ++ l2) k = some v := by
  induction l1 with
  | nil => simp [dictGet] at h
  | cons p t ih =>
    by_cases hp : p.1 = k
    · simpa [dictGet, hp] using h
    · simp only [dictGet, List.cons_append, hp, if_false] at h ⊢
      exact ih h

/-- Lookup moves to the right part when the left part lacks the key. -/
lemma dictGet_append_right {β : Type} {l1 : List (String × β)} (l2 : List (String × β))
    (k : String) (h : dictGet l1 k = none) :
    dictGet (l1 ++ l2) k = dictGet l2 k := by
  induction l1 with
  | nil => rfl
  | cons p t ih =>
    by_cases hp : p.1 = k
    · simp [dictGet, hp] at h
    · simp only [dictGet, List.cons_append, hp, if_false] at h ⊢
      exact ih h

/-- Lookup commutes with a key-preserving value map. -/
lemma dictGet_keymap {β γ : Type} (f : String → β → γ) (l : List (String × β))
    (k : String) :
    dictGet (l.map (fun p => (p.1, f p.1 p.2))) k = (dictGet l k).map (f k) := by
  induction l with
  | nil => rfl
  | cons p t ih =>
    by_cases hp : p.1 = k
    · subst hp
      simp [dictGet, ih]
    · simp [dictGet, hp, ih]

/-- Assignment `d[k] = v` makes `k` map to `v`. -/
lemma dictGet_dictSet_self {β : Type} (d : List (String × β)) (k : String) (v : β) :
    dictGet (dictSet d k v) k = some v := by
  induction d with
  | nil => simp [dictSet, dictGet]
  | cons p t ih =>
    by_cases hp : p.1 = k <;> simp [dictSet, dictGet, hp, ih]

/-- Assignment `d[k] = v` does not change other keys. -/
lemma dictGet_dictSet_ne {β : Type} (d : List (String × β)) (k k1 : String) (v : β)
    (hne : k1 ≠ k) : dictGet (dictSet d k v) k1 = dictGet d k1 := by
  induction d with
  | nil => simp [dictSet, dictGet, hne.symm]
  | cons p t ih =>
    by_cases hp : p.1 = k
    · simp [dictSet, dictGet, hp, hne.symm]
    · by_cases hp1 : p.1 = k1 <;> simp [dictSet, dictGet, hp, hp1, hne, ih]

/-- Updating by `d.update(other)` does not change keys that `other` does not bind. -/
lemma dictGet_dictUpdate_not_mem {β : Type} (d other : List (String × β)) (k : String)
    (h : dictGet other k = none) :
    dictGet (dictUpdate d other) k = dictGet d k := by
  induction other generalizing d with
  | nil => rfl
  | cons p t ih =>
    have hp : p.1 ≠ k := by
      intro he
      simp [dictGet, he] at h
    have ht : dictGet t k = none := by
      simpa [dictGet, hp] using h
    show dictGet (dictUpdate (dictSet d p.1 p.2) t) k = dictGet d k
    rw [ih _ ht, dictGet_dictSet_ne _ _ _ _ (fun he => hp he.symm)]

/-- Updating by `d.update(other)` gives every key bound by `other` its `other` value
(keys of a Python dict are unique). -/
lemma dictGet_dictUpdate_mem {β : Type} (d other : List (String × β)) (k : String)
    (v : β) (hnd : (other.map Prod.fst).Nodup) (h : dictGet other k = some v) :
    dictGet (dictUpdate d other) k = some v := by
  induction other generalizing d with
  | nil => simp [dictGet] at h
  | cons p t ih =>
    simp only [List.map_cons, List.nodup_cons] at hnd
    by_cases hp : p.1 = k
    · have hv : p.2 = v := by
        simpa [dictGet, hp] using h
      have htnone : dictGet t k = none := by
        apply dictGet_eq_none_of_not_mem_keys
        rw [← hp]
        exact hnd.1
      show dictGet (dictUpdate (dictSet d p.1 p.2) t) k = some v
      rw [dictGet_dictUpdate_not_mem _ _ _ htnone, hp, hv]
      exact dictGet_dictSet_self d k v
    · have ht : dictGet t k = some v := by
        simpa [dictGet, hp] using h
      exact ih (dictSet d p.1 p.2) hnd.2 ht

/-- Every key of a dict's own item list is contained in it. -/
lemma containsKey_of_mem {β : Type} (d : List (String × β)) (p : String × β)
    (h : p ∈ d) : containsKey d p.1 = true := by
  simp only [containsKey, List.any_eq_true]
  exact ⟨p, h, by simp⟩

/-- The `setdefault` pass of `merge_defaults` over the section's own items is
a no-op. -/
lemma applySetdefaults_self {β : Type} (d : List (String × β)) :
    applySetdefaults d d = d := by
  have main : ∀ l : List (String × β), (∀ p ∈ l, containsKey d p.1 = true) →
      l.foldl (fun acc p => dictSetdefault acc p.1 p.2) d = d := by
    intro l
    induction l with
    | nil => intro _; rfl
    | cons p t ih =>
      intro h
      show List.foldl _ (dictSetdefault d p.1 p.2) t = d
      rw [show dictSetdefault d p.1 p.2 = d by
        simp [dictSetdefault, h p (List.mem_cons_self p t)]]
      exact ih (fun q hq => h q (List.mem_cons_of_mem p hq))
  exact main d (fun p hp => containsKey_of_mem d p hp)

/-- The extra-keys pass preserves every binding already in `merged`. -/
lemma dictGet_add_extra_of_some (m cfg : List (String × JVal)) (k : String)
    (v : JVal) (h : dictGet m k = some v) :
    dictGet (add_extra_keys m cfg) k = some v := by
  induction cfg generalizing m with
  | nil => exact h
  | cons p t ih =>
    show dictGet (add_extra_keys (if containsKey m p.1 = true then m else m ++ [p]) t) k
      = some v
    by_cases hc : containsKey m p.1 = true
    · rw [if_pos hc]
      exact ih m h
    · rw [if_neg hc]
      exact ih _ (dictGet_append_left _ _ _ h)

/-- The extra-keys pass copies the binding of any key absent from `merged`
from `cfg` (whose keys, as a Python dict's, are unique). -/
lemma dictGet_add_extra_of_none (m cfg : List (String × JVal)) (k : String)
    (hnd : (cfg.map Prod.fst).Nodup) (h : dictGet m k = none) :
    dictGet (add_extra_keys m cfg) k = dictGet cfg k := by
  induction cfg generalizing m with
  | nil => exact h
  | cons p t ih =>
    simp only [List.map_cons, List.nodup_cons] at hnd
    show dictGet (add_extra_keys (if containsKey m p.1 = true then m else m ++ [p]) t) k
      = dictGet (p :: t) k
    by_cases hp : p.1 = k
    · have hcm : ¬containsKey m p.1 = true := by
        rw [hp]
        simp [(containsKey_eq_false_iff m k).mpr h]
      rw [if_neg hcm]
      have hm1 : dictGet (m ++ [p]) k = some p.2 := by
        rw [dictGet_append_right _ _ h]
        simp [dictGet, hp]
      rw [dictGet_add_extra_of_some _ _ _ _ hm1]
      simp [dictGet, hp]
    · have hnone : dictGet (if containsKey m p.1 = true then m else m ++ [p]) k = none := by
        by_cases hc : containsKey m p.1 = true
        · rw [if_pos hc]
          exact h
        · rw [if_neg hc, dictGet_append_right _ _ h]
          simp [dictGet, hp]
      rw [ih _ hnd.2 hnone]
      simp [dictGet, hp]

/-- C9: the `_load_config` merge of `git_agent.py` / `ci_cd_agent.py`, for
any default config and any configuration dict supplied to it: a documented
section absent from the input comes out as the full default section; a
section provided as a dict comes out as the default section updated with the
provided bindings — so every leaf key present in the input keeps its provided
value, every leaf key absent from the input gets its documented default —
and unknown top-level keys of the input appear unchanged in the merged
result. -/
theorem merge_defaults_spec (dc : List (String × List (String × JVal)))
    (cfg : List (String × JVal)) (hnd : (cfg.map Prod.fst).Nodup) :
    (∀ k d, dictGet dc k = some d → dictGet cfg k = none →
      dictGet (merge_defaults dc cfg) k = some (JVal.dict d)) ∧
    (∀ k d v, dictGet dc k = some d → dictGet cfg k = some (JVal.dict v) →
      dictGet (merge_defaults dc cfg) k = some (JVal.dict (dictUpdate d v))) ∧
    (∀ (d v : List (String × JVal)) (k2 : String) (v2 : JVal),
      (v.map Prod.fst).Nodup → dictGet v k2 = some v2 →
      dictGet (dictUpdate d v) k2 = some v2) ∧
    (∀ (d v : List (String × JVal)) (k2 : String) (v2 : JVal),
      dictGet v k2 = none → dictGet d k2 = some v2 →
      dictGet (dictUpdate d v) k2 = some v2) ∧
    (∀ k, dictGet dc k = none →
      dictGet (merge_defaults dc cfg) k = dictGet cfg k) := by
  have hbase : ∀ k, dictGet (dc.map (fun kd => (kd.1, merge_section cfg kd.1 kd.2))) k
      = (dictGet dc k).map (fun d => merge_section cfg k d) :=
    fun k => dictGet_keymap (fun k1 d => merge_section cfg k1 d) dc k
  refine ⟨?_, ?_, ?_, ?_, ?_⟩
  · intro k d hdc hcfg
    have h1 : dictGet (dc.map (fun kd => (kd.1, merge_section cfg kd.1 kd.2))) k
        = some (JVal.dict d) := by
      rw [hbase k, hdc]
      simp [merge_section, hcfg]
    simp only [merge_defaults]
    exact dictGet_add_extra_of_some _ _ _ _ h1
  · intro k d v hdc hcfg
    have h1 : dictGet (dc.map (fun kd => (kd.1, merge_section cfg kd.1 kd.2))) k
        = some (JVal.dict (dictUpdate d v)) := by
      rw [hbase k, hdc]
      simp [merge_section, hcfg, applySetdefaults_self]
    simp only [merge_defaults]
    exact dictGet_add_extra_of_some _ _ _ _ h1
  · intro d v k2 v2 hv h2
    exact dictGet_dictUpdate_mem d v k2 v2 hv h2
  · intro d v k2 v2 h1 h2
    rw [dictGet_dictUpdate_not_mem _ _ _ h1]
    exact h2
  · intro k hdc
    have h1 : dictGet (dc.map (fun kd => (kd.1, merge_section cfg kd.1 kd.2))) k
        = none := by
      rw [hbase k, hdc]
      rfl
    simp only [merge_defaults]
    exact dictGet_add_extra_of_none _ _ _ hnd h1

/-- Witness for C9, on both agents' default configs: for the input
`{"git": {"auto_commit": false, "custom_key": 7}, "extra": 3}`, the absent
`ci_cd` section comes out whole from the defaults, the provided `git` section
is the default section updated with the two provided bindings (keeping
`auto_commit = false`, backfilling `auto_push = true`), and the unknown
top-level key `extra` is preserved; for `git_agent.py`'s defaults and the
empty input, the `logging` section comes out whole. -/
theorem merge_defaults_spec_witness :
    dictGet (merge_defaults DEFAULT_CONFIG
        [("git", JVal.dict [("auto_commit", JVal.bool false), ("custom_key", JVal.int 7)]),
         ("extra", JVal.int 3)]) "ci_cd" =
      some (JVal.dict
        [("auto_deploy_staging", JVal.bool true), ("auto_deploy_production", JVal.bool false),
         ("rollback_on_failure", JVal.bool true), ("deploy_timeout", JVal.int 300),
         ("github_actions_workflow", JVal.str "maestro-automation.yml")]) ∧
    dictGet (merge_defaults DEFAULT_CONFIG
        [("git", JVal.dict [("auto_commit", JVal.bool false), ("custom_key", JVal.int 7)]),
         ("extra", JVal.int 3)]) "git" =
      some (JVal.dict (dictUpdate
        [("auto_commit", JVal.bool true), ("auto_push", JVal.bool true),
         ("auto_pr", JVal.bool true), ("branch_prefix", JVal.str "feature/"),
         ("commit_message_template", JVal.str "feat: \x7btask_id\x7d - \x7bdescription\x7d")]
        [("auto_commit", JVal.bool false), ("custom_key", JVal.int 7)])) ∧
    dictGet (dictUpdate
        [("auto_commit", JVal.bool true), ("auto_push", JVal.bool true),
         ("auto_pr", JVal.bool true), ("branch_prefix", JVal.str "feature/"),
         ("commit_message_template", JVal.str "feat: \x7btask_id\x7d - \x7bdescription\x7d")]
        [("auto_commit", JVal.bool false), ("custom_key", JVal.int 7)])
      "auto_commit" = some (JVal.bool false) ∧
    dictGet (dictUpdate
        [("auto_commit", JVal.bool true), ("auto_push", JVal.bool true),
         ("auto_pr", JVal.bool true), ("branch_prefix", JVal.str "feature/"),
         ("commit_message_template", JVal.str "feat: \x7btask_id\x7d - \x7bdescription\x7d")]
        [("auto_commit", JVal.bool false), ("custom_key", JVal.int 7)])
      "auto_push" = some (JVal.bool true) ∧
    dictGet (merge_defaults DEFAULT_CONFIG
        [("git", JVal.dict [("auto_commit", JVal.bool false), ("custom_key", JVal.int 7)]),
         ("extra", JVal.int 3)]) "extra" = some (JVal.int 3) ∧
    dictGet (merge_defaults GIT_DEFAULT_CONFIG []) "logging" =
      some (JVal.dict [("log_file", JVal.str "logs/git-automation.log")]) := by
  have h := merge_defaults_spec DEFAULT_CONFIG
    [("git", JVal.dict [("auto_commit", JVal.bool false), ("custom_key", JVal.int 7)]),
     ("extra", JVal.int 3)] (by decide)
  have hg := merge_defaults_spec GIT_DEFAULT_CONFIG [] (by decide)
  refine ⟨h.1 "ci_cd" _ rfl rfl, h.2.1 "git" _ _ rfl rfl,
    h.2.2.1 _ _ "auto_commit" _ (by decide) rfl,
    h.2.2.2.1 _ _ "auto_push" _ rfl rfl,
    (h.2.2.2.2 "extra" rfl).trans rfl,
    hg.1 "logging" _ rfl rfl⟩

/-- C8: the documented default for `security.require_manual_approval` is
`true`, and with manual approval required `trigger_production_deploy`
succeeds without invoking the deploy workflow, for any CLI availability and
workflow outcome; only when manual approval is not required does it behave
exactly like a staging deploy (with staging auto-deploy enabled). -/
theorem trigger_production_deploy_short_circuits :
    (dictGet DEFAULT_CONFIG "security").bind
      (fun sec => dictGet sec "require_manual_approval") = some (JVal.bool true) ∧
    (∀ gh wok : Bool, trigger_production_deploy true gh wok = (true, false)) ∧
    (∀ gh wok : Bool,
      trigger_production_deploy false gh wok = cicd_deploy_staging true gh wok) := by
  refine ⟨rfl, fun gh wok => rfl, fun gh wok => ?_⟩
  cases gh <;> cases wok <;> rfl

end Maestro
